import Mathlib

/-!
Verification development for the visualrecords ingestion pipeline.

The TypeScript source is shallowly embedded: JavaScript strings become
`String`, row objects (string-keyed maps with missing keys behaving as the
empty string under the `||` fallback idiom) become `Row := String → String`,
and the JavaScript `a || b` fallback on strings becomes `jsOr`.
Date parsing by the JavaScript `Date` constructor and serialisation by
`toISOString` are environment-dependent, so they are passed as explicit
parameters (`pd : String → Option Nat` for parsing to an epoch instant,
`iso : Nat → String` for the canonical rendering); every theorem that
touches them holds for all such parameter pairs.
-/

namespace VisualRecords

/-- JavaScript string fallback `a || b`: the empty string is falsy. -/
def jsOr (a b : String) : String := if a = "" then b else a

/-- List-level test of whether the first list starts the second, used to
implement the substring test below. -/
def isPrefL : List Char → List Char → Bool
  | [], _ => true
  | _ :: _, [] => false
  | a :: as, b :: bs => a = b && isPrefL as bs

/-- List-level substring test, modelling JavaScript `String.includes`. -/
def containsL (pat : List Char) : List Char → Bool
  | [] => isPrefL pat []
  | c :: cs => isPrefL pat (c :: cs) || containsL pat cs

/-- Substring test on strings: `containsSub pat s` models `s.includes(pat)`. -/
def containsSub (pat s : String) : Bool := containsL pat.data s.data

/-- Keep only decimal digits, modelling `replace(/\D/g, "")`. -/
def normPhone (s : String) : String := String.mk (s.data.filter Char.isDigit)

/-- Lowercase a string, modelling `toLowerCase` (ASCII letters; the
source data is ASCII phone-log text). -/
def lowerStr (s : String) : String := String.mk (s.data.map Char.toLower)

/-- Remove all whitespace, modelling `replace(/\s+/g, "")`. -/
def stripWS (s : String) : String :=
  String.mk (s.data.filter (fun c => !c.isWhitespace))

/-- Lowercase and strip whitespace: the message-body normalisation of
`createMessageId`. -/
def normText (s : String) : String := stripWS (lowerStr s)

/-- Trim leading and trailing whitespace, modelling `String.trim`. -/
def jsTrim (s : String) : String :=
  String.mk (((s.data.dropWhile Char.isWhitespace).reverse.dropWhile
    Char.isWhitespace).reverse)

/-- Timestamp normalisation of `createMessageId`: trim, then try to parse as
a date (`new Date(...)`); on success render the instant canonically
(`toISOString`), otherwise lowercase the raw string. -/
def normTimestamp (pd : String → Option Nat) (iso : Nat → String)
    (t : String) : String :=
  match pd (jsTrim t) with
  | some n => iso n
  | none => lowerStr (jsTrim t)

/-- Content fingerprint `createMessageId` (lib/utils): digit-normalised
sender and receiver, case- and whitespace-normalised content, normalised
timestamp, joined with a pipe separator. -/
def createMessageId (pd : String → Option Nat) (iso : Nat → String)
    (sender receiver content timestamp : String) : String :=
  normPhone sender ++ "|" ++ normPhone receiver ++ "|" ++ normText content
    ++ "|" ++ normTimestamp pd iso timestamp

/-- Canonical SMS record (`SMS` in types): `num` models the `SMS #` field,
`type` the `Sender`/`Receiver` direction tag. -/
structure SMS where
  num : String
  sender : String
  receiver : String
  body : String
  type : String
  timestamp : String
deriving DecidableEq, Repr

/-- Canonical call record (`CallLog` in types): `callNum` models `Call #`,
`callInfo` models `Call Info`. -/
structure CallLog where
  callNum : String
  sender : String
  receiver : String
  callInfo : String
  type : String
  timestamp : String
deriving DecidableEq, Repr

/-- Canonical contact record: `name` models `Contact Name`, `phone` models
`Phone Number`, `fullName` models the optional `Full Name` (absent
encoded as `""`). -/
structure Contact where
  name : String
  phone : String
  fullName : String
deriving DecidableEq, Repr

/-- Fingerprint of an SMS record: `createMessageId` reads
`item["Sender Number"]`, `item["Receiver Number"]`,
`item["Message Body"] || item["Call Info"]` (the latter absent on an SMS
object) and `item["Timestamp"]`. -/
def smsKey (pd : String → Option Nat) (iso : Nat → String) (m : SMS) :
    String :=
  createMessageId pd iso m.sender m.receiver (jsOr m.body "") m.timestamp

/-- Fingerprint of a call record: on a call object `item["Message Body"]`
is absent, so the content falls through to `item["Call Info"]`. -/
def callKey (pd : String → Option Nat) (iso : Nat → String) (c : CallLog) :
    String :=
  createMessageId pd iso c.sender c.receiver (jsOr "" c.callInfo) c.timestamp

/-- Membership in the seen-set of the deduplicator (the JavaScript `Set` of
already-emitted fingerprints, modelled as a list of keys). -/
def memb (s : String) : List String → Bool
  | [] => false
  | t :: ts => if s = t then true else memb s ts

/-- Single pass of `deduplicateItems`: emit an item when its key has not
been seen, recording emitted keys in `seen`. -/
def dedupGo (key : α → String) (seen : List String) : List α → List α
  | [] => []
  | x :: xs =>
      if memb (key x) seen then dedupGo key seen xs
      else x :: dedupGo key (key x :: seen) xs

/-- The deduplicator `deduplicateItems` (lib/utils): a single pass with an
initially empty seen-set, parametrised by the id function (the content
fingerprint, or a record field for contacts). -/
def deduplicateItems (key : α → String) (items : List α) : List α :=
  dedupGo key [] items

/-- Specification of deduplication, written from the claim: walking the
input, a record survives exactly when its fingerprint does not occur among
the fingerprints of the strictly earlier input records (`earlier`
accumulates the keys of every record walked so far, kept or not). -/
def dedupSpecAux (key : α → String) (earlier : List String) :
    List α → List α
  | [] => []
  | x :: xs =>
      if memb (key x) earlier then dedupSpecAux key (earlier ++ [key x]) xs
      else x :: dedupSpecAux key (earlier ++ [key x]) xs

/-- Specification of deduplication from the claim: keep exactly the records
whose fingerprint did not occur earlier in the list, in input order. -/
def dedupSpec (key : α → String) (xs : List α) : List α :=
  dedupSpecAux key [] xs

theorem memb_snoc (k k' : String) (l : List String) :
    memb k (l ++ [k']) = (memb k l || decide (k = k')) := by
  induction l with
  | nil => simp [memb]
  | cons t ts ih =>
      by_cases h : k = t <;> simp [memb, h, ih]

theorem dedupGo_eq_specAux (key : α → String) (xs : List α) :
    ∀ (seen earlier : List String),
      (∀ k, memb k seen = memb k earlier) →
      dedupGo key seen xs = dedupSpecAux key earlier xs := by
  induction xs with
  | nil => intro seen earlier _; rfl
  | cons x xs ih =>
      intro seen earlier h
      simp only [dedupGo, dedupSpecAux, h (key x)]
      by_cases hmem : memb (key x) earlier
      · simp only [hmem, if_true]
        apply ih
        intro k
        rw [h k, memb_snoc]
        by_cases hk : k = key x
        · subst hk; simp [hmem]
        · simp [hk]
      · simp only [hmem, if_false, Bool.false_eq_true]
        congr 1
        apply ih
        intro k
        rw [memb_snoc]
        by_cases hk : k = key x
        · subst hk; simp [memb]
        · simp [memb, hk, h k]

theorem dedup_eq_spec (key : α → String) (xs : List α) :
    deduplicateItems key xs = dedupSpec key xs :=
  dedupGo_eq_specAux key xs [] [] (fun _ => rfl)

theorem dedupGo_sublist (key : α → String) (xs : List α) :
    ∀ seen, List.Sublist (dedupGo key seen xs) xs := by
  induction xs with
  | nil => intro seen; simp [dedupGo]
  | cons x xs ih =>
      intro seen
      simp only [dedupGo]
      by_cases hmem : memb (key x) seen
      · simp only [hmem, if_true]
        exact List.Sublist.cons x (ih seen)
      · simp only [hmem, if_false, Bool.false_eq_true]
        exact List.Sublist.cons₂ x (ih (key x :: seen))

theorem dedup_sublist (key : α → String) (xs : List α) :
    List.Sublist (deduplicateItems key xs) xs :=
  dedupGo_sublist key xs []

/-- C1: for every list of validated Message or Call records, the
Deduplicator (`deduplicateItems` keyed by the content fingerprint
`createMessageId`) returns the subsequence of the input containing exactly
those records whose fingerprint did not occur earlier in the list — for
every pair of records with identical fingerprints only the first in input
order survives — and the survivors keep their relative order (the output is
a sublist of the input). Stated for every date-parsing environment. -/
theorem dedup_keeps_first_occurrence
    (pd : String → Option Nat) (iso : Nat → String)
    (ms : List SMS) (cs : List CallLog) :
    deduplicateItems (smsKey pd iso) ms = dedupSpec (smsKey pd iso) ms ∧
    List.Sublist (deduplicateItems (smsKey pd iso) ms) ms ∧
    deduplicateItems (callKey pd iso) cs = dedupSpec (callKey pd iso) cs ∧
    List.Sublist (deduplicateItems (callKey pd iso) cs) cs :=
  ⟨dedup_eq_spec _ ms, dedup_sublist _ ms,
   dedup_eq_spec _ cs, dedup_sublist _ cs⟩

theorem dedupGo_keys (key : α → String) (xs : List α) :
    ∀ seen,
      (dedupGo key seen xs).Pairwise (fun a b => key a ≠ key b) ∧
      ∀ y ∈ dedupGo key seen xs, memb (key y) seen = false := by
  induction xs with
  | nil => intro seen; simp [dedupGo]
  | cons x xs ih =>
      intro seen
      simp only [dedupGo]
      by_cases hmem : memb (key x) seen
      · simp only [hmem, if_true]
        exact ih seen
      · simp only [hmem, if_false, Bool.false_eq_true]
        have htail := ih (key x :: seen)
        constructor
        · refine List.Pairwise.cons ?_ htail.1
          intro y hy
          have := htail.2 y hy
          simp only [memb] at this
          intro hxy
          rw [← hxy] at this
          simp at this
        · intro y hy
          rcases List.mem_cons.mp hy with h | h
          · subst h
            exact Bool.not_eq_true _ ▸ (by simpa using hmem)
          · have := htail.2 y h
            simp only [memb] at this
            by_cases hk : key y = key x
            · rw [hk] at this; simp at this
            · simpa [hk] using this

theorem dedupGo_key_surv (key : α → String) (xs : List α) :
    ∀ (seen : List String) (K : String),
      memb K seen = false → (∃ y ∈ xs, key y = K) →
      ∃ z ∈ dedupGo key seen xs, key z = K := by
  induction xs with
  | nil => intro seen K _ h; simp at h
  | cons x xs ih =>
      intro seen K hK h
      simp only [dedupGo]
      by_cases hmem : memb (key x) seen
      · simp only [hmem, if_true]
        rcases h with ⟨y, hy, hyK⟩
        rcases List.mem_cons.mp hy with h | h
        · subst h
          rw [hyK] at hmem
          rw [hmem] at hK
          exact absurd hK (by simp)
        · exact ih seen K hK ⟨y, h, hyK⟩
      · simp only [hmem, if_false, Bool.false_eq_true]
        by_cases hx : key x = K
        · exact ⟨x, List.mem_cons_self _ _, hx⟩
        · rcases h with ⟨y, hy, hyK⟩
          rcases List.mem_cons.mp hy with h | h
          · exact absurd (h ▸ hyK) hx
          · have hK' : memb K (key x :: seen) = false := by
              simp only [memb]
              have : ¬K = key x := fun hc => hx hc.symm
              simpa [this] using hK
            rcases ih (key x :: seen) K hK' ⟨y, h, hyK⟩ with ⟨z, hz, hzK⟩
            exact ⟨z, List.mem_cons_of_mem _ hz, hzK⟩

theorem countP_key_le_one (key : α → String) (K : String) (l : List α)
    (h : l.Pairwise (fun a b => key a ≠ key b)) :
    l.countP (fun y => key y == K) ≤ 1 := by
  induction l with
  | nil => simp
  | cons x xs ih =>
      rw [List.countP_cons]
      rcases List.pairwise_cons.mp h with ⟨hx, htail⟩
      by_cases hk : key x == K
      · have hzero : xs.countP (fun y => key y == K) = 0 := by
          rw [List.countP_eq_zero]
          intro y hy
          have := hx y hy
          simp only [beq_iff_eq] at hk ⊢
          rw [← hk]
          exact fun hc => this hc.symm
        simp [hk, hzero]
      · simpa [hk] using ih htail

theorem dedup_countP_key_eq_one (key : α → String) (l : List α) (K : String)
    (h : ∃ y ∈ l, key y = K) :
    (deduplicateItems key l).countP (fun y => key y == K) = 1 := by
  have hsurv := dedupGo_key_surv key l [] K rfl h
  have hpw := (dedupGo_keys key l []).1
  refine Nat.le_antisymm (countP_key_le_one key K _ hpw) ?_
  rcases hsurv with ⟨z, hz, hzK⟩
  have : 0 < (deduplicateItems key l).countP (fun y => key y == K) := by
    rw [List.countP_pos_iff]
    exact ⟨z, hz, by simp [hzK]⟩
  exact this

theorem dedupGo_self (key : α → String) (xs : List α) :
    ∀ seen,
      xs.Pairwise (fun a b => key a ≠ key b) →
      (∀ y ∈ xs, memb (key y) seen = false) →
      dedupGo key seen xs = xs := by
  induction xs with
  | nil => intro seen _ _; rfl
  | cons x xs ih =>
      intro seen hpw hfresh
      rcases List.pairwise_cons.mp hpw with ⟨hx, htail⟩
      have hm : memb (key x) seen = false := hfresh x (List.mem_cons_self _ _)
      simp only [dedupGo, hm, Bool.false_eq_true, if_false]
      congr 1
      apply ih (key x :: seen) htail
      intro y hy
      have hne : ¬key y = key x := fun hc => (hx y hy) hc.symm
      simp only [memb, hne, if_false]
      exact hfresh y (List.mem_cons_of_mem _ hy)

theorem dedup_idem (key : α → String) (xs : List α) :
    deduplicateItems key (deduplicateItems key xs) = deduplicateItems key xs := by
  have h := dedupGo_keys key xs ([] : List String)
  exact dedupGo_self key (deduplicateItems key xs) [] h.1 (fun _ _ => rfl)

/-- C6: running the Deduplicator twice yields nothing further — for every
input list of Message or Call records (keyed by the content fingerprint),
applying `deduplicateItems` to its own output returns that output
unchanged. -/
theorem dedup_idempotent
    (pd : String → Option Nat) (iso : Nat → String)
    (ms : List SMS) (cs : List CallLog) :
    deduplicateItems (smsKey pd iso)
        (deduplicateItems (smsKey pd iso) ms) =
      deduplicateItems (smsKey pd iso) ms ∧
    deduplicateItems (callKey pd iso)
        (deduplicateItems (callKey pd iso) cs) =
      deduplicateItems (callKey pd iso) cs :=
  ⟨dedup_idem _ ms, dedup_idem _ cs⟩

/-- C2: two Message records that differ only in phone-number punctuation
(equal digit sequences for sender and for receiver), in body whitespace and
letter case (equal normalised bodies), and in timestamp format such that
both timestamp strings parse to the same instant, receive the same
fingerprint from `createMessageId`; and the Deduplicator leaves exactly one
record with that fingerprint in any list containing both. -/
theorem fingerprint_equivalence
    (pd : String → Option Nat) (iso : Nat → String) (m₁ m₂ : SMS) (n : Nat)
    (hs : normPhone m₁.sender = normPhone m₂.sender)
    (hr : normPhone m₁.receiver = normPhone m₂.receiver)
    (hb : normText m₁.body = normText m₂.body)
    (ht₁ : pd (jsTrim m₁.timestamp) = some n)
    (ht₂ : pd (jsTrim m₂.timestamp) = some n) :
    smsKey pd iso m₁ = smsKey pd iso m₂ ∧
    ∀ l : List SMS, m₁ ∈ l → m₂ ∈ l →
      (deduplicateItems (smsKey pd iso) l).countP
        (fun y => smsKey pd iso y == smsKey pd iso m₁) = 1 := by
  have hbody : ∀ m : SMS, normText (jsOr m.body "") = normText m.body := by
    intro m
    unfold jsOr
    by_cases h : m.body = "" <;> simp [h]
  have hkey : smsKey pd iso m₁ = smsKey pd iso m₂ := by
    unfold smsKey createMessageId normTimestamp
    rw [hs, hr, hbody m₁, hbody m₂, hb, ht₁, ht₂]
  refine ⟨hkey, fun l h₁ _ => ?_⟩
  exact dedup_countP_key_eq_one (smsKey pd iso) l (smsKey pd iso m₁)
    ⟨m₁, h₁, rfl⟩

/-- Witness for C2 at a concrete pair: sender `+1 555-0100` versus
`15550100`, bodies differing only in case and whitespace, and a parsing
environment in which both timestamp spellings denote the same instant. -/
theorem fingerprint_equivalence_witness :
    (normPhone "+1 555-0100" = normPhone "15550100" ∧
     normText "Hi There" = normText "hithere") ∧
    ((deduplicateItems
        (smsKey (fun _ => some 1704448800000) (fun n => toString n))
        [⟨"1", "+1 555-0100", "222", "Hi There", "Sender",
          "2024-01-05 10:00"⟩,
         ⟨"2", "15550100", "222", "hithere", "Sender",
          "Jan 5 2024 10:00am"⟩]).countP
      (fun y =>
        smsKey (fun _ => some 1704448800000) (fun n => toString n) y ==
        smsKey (fun _ => some 1704448800000) (fun n => toString n)
          ⟨"1", "+1 555-0100", "222", "Hi There", "Sender",
           "2024-01-05 10:00"⟩) = 1) :=
  ⟨⟨by decide, by decide⟩,
   (fingerprint_equivalence (fun _ => some 1704448800000)
      (fun n => toString n)
      ⟨"1", "+1 555-0100", "222", "Hi There", "Sender", "2024-01-05 10:00"⟩
      ⟨"2", "15550100", "222", "hithere", "Sender", "Jan 5 2024 10:00am"⟩
      1704448800000 (by decide) (by decide) (by decide) rfl rfl).2
    _ (by decide) (by decide)⟩

/-- Raw decoded row: a JavaScript object mapping column labels to string
cell values. A missing key and an empty cell behave identically under the
`||` fallback idiom, so both are encoded as `""`. -/
def Row : Type := String → String

/-- Sender extraction of `validateSMSData`:
`item["Sender Number"] || item["Sender"] || item["__EMPTY"]`. -/
def smsSender (r : Row) : String :=
  jsOr (r "Sender Number") (jsOr (r "Sender") (r "__EMPTY"))

/-- Receiver extraction of `validateSMSData`. -/
def smsReceiver (r : Row) : String :=
  jsOr (r "Receiver Number")
    (jsOr (r "Target Number") (jsOr (r "Receiver") (r "__EMPTY_1")))

/-- Body extraction of `validateSMSData`. -/
def smsBody (r : Row) : String :=
  jsOr (r "Message Body") (jsOr (r "Message") (r "__EMPTY_2"))

/-- Timestamp extraction of `validateSMSData`. -/
def smsTime (r : Row) : String :=
  jsOr (r "Timestamp") (jsOr (r "Date") (r "__EMPTY_4"))

/-- Id extraction of `validateSMSData`:
`item["SMS #"] || item["SMS"] || item["SMS #"]` (the duplicate is in the
source). -/
def smsNum (r : Row) : String :=
  jsOr (r "SMS #") (jsOr (r "SMS") (r "SMS #"))

/-- Per-row validation of `validateSMSData` (lib/utils, the revision wired
into the store): skip rows tagged as calls, header-echo rows, metadata
rows, and rows missing a required field; otherwise build the record with
direction `item.Type || "Sender"`. -/
def validateSMSRow (r : Row) : Option SMS :=
  if r "_type" = "Call" then none
  else if smsSender r = "Sender Number" ∨ smsReceiver r = "Receiver Number" ∨
      smsReceiver r = "Target Number" ∨ smsBody r = "Message Body" ∨
      smsBody r = "Message" then none
  else if smsNum r = "SMS #" ∨ smsTime r = "Timestamp" then none
  else if containsSub "Phone Number:" (smsSender r) ∨
      containsSub "Export Date:" (smsSender r) ∨
      containsSub "===" (smsSender r) then none
  else if smsSender r ≠ "" ∧ smsReceiver r ≠ "" ∧ smsBody r ≠ "" ∧
      smsTime r ≠ "" ∧ smsSender r ≠ "Sender Number" ∧
      smsReceiver r ≠ "Receiver Number" ∧ smsReceiver r ≠ "Target Number" ∧
      smsBody r ≠ "Message Body" ∧ smsBody r ≠ "Message" ∧
      smsTime r ≠ "Timestamp" then
    some ⟨smsNum r, smsSender r, smsReceiver r, smsBody r,
      jsOr (r "Type") "Sender", smsTime r⟩
  else none

/-- SMS normalizer `validateSMSData`: validate every row, then deduplicate
by content fingerprint. -/
def validateSMSData (pd : String → Option Nat) (iso : Nat → String)
    (data : List Row) : List SMS :=
  deduplicateItems (smsKey pd iso) (data.filterMap validateSMSRow)

/-- Sender extraction of the earlier revision of `validateSMSData`
(no `Sender` alias). -/
def smsSenderV0 (r : Row) : String := jsOr (r "Sender Number") (r "__EMPTY")

/-- Per-row validation of the earlier revision of `validateSMSData`
(part_002 first revision): no kind tag, no metadata filter, direction
`(type || "Unknown")`. -/
def validateSMSRowV0 (r : Row) : Option SMS :=
  if smsSenderV0 r = "Sender Number" ∨
      jsOr (r "Receiver Number") (r "__EMPTY_1") = "Receiver Number" ∨
      jsOr (r "Message Body") (r "__EMPTY_2") = "Message Body" then none
  else if jsOr (r "SMS #") (r "SMS") = "SMS #" ∨
      jsOr (r "Type") (r "__EMPTY_3") = "Type" ∨
      jsOr (r "Timestamp") (r "__EMPTY_4") = "Timestamp" then none
  else if smsSenderV0 r ≠ "" ∧ jsOr (r "Receiver Number") (r "__EMPTY_1") ≠ "" ∧
      jsOr (r "Message Body") (r "__EMPTY_2") ≠ "" ∧
      jsOr (r "Timestamp") (r "__EMPTY_4") ≠ "" ∧
      smsSenderV0 r ≠ "Sender Number" ∧
      jsOr (r "Receiver Number") (r "__EMPTY_1") ≠ "Receiver Number" ∧
      jsOr (r "Message Body") (r "__EMPTY_2") ≠ "Message Body" ∧
      jsOr (r "Timestamp") (r "__EMPTY_4") ≠ "Timestamp" then
    some ⟨jsOr (r "SMS #") (r "SMS"), smsSenderV0 r,
      jsOr (r "Receiver Number") (r "__EMPTY_1"),
      jsOr (r "Message Body") (r "__EMPTY_2"),
      jsOr (jsOr (r "Type") (r "__EMPTY_3")) "Unknown",
      jsOr (r "Timestamp") (r "__EMPTY_4")⟩
  else none

/-- Earlier revision of the SMS normalizer: row validation only, no
deduplication pass. -/
def validateSMSDataV0 (data : List Row) : List SMS :=
  data.filterMap validateSMSRowV0

theorem validateSMSRow_fields (r : Row) (m : SMS)
    (h : validateSMSRow r = some m) :
    m.sender ≠ "" ∧ m.receiver ≠ "" ∧ m.body ≠ "" ∧ m.timestamp ≠ "" ∧
    m.sender ≠ "Sender Number" := by
  unfold validateSMSRow at h
  split_ifs at h with h₁ h₂ h₃ h₄ h₅
  cases h
  exact ⟨h₅.1, h₅.2.1, h₅.2.2.1, h₅.2.2.2.1, h₅.2.2.2.2.1⟩

theorem mem_validateSMSData (pd : String → Option Nat) (iso : Nat → String)
    (data : List Row) (m : SMS) (h : m ∈ validateSMSData pd iso data) :
    ∃ r ∈ data, validateSMSRow r = some m := by
  have hsub : m ∈ data.filterMap validateSMSRow :=
    (dedup_sublist (smsKey pd iso) _).subset h
  rcases List.mem_filterMap.mp hsub with ⟨r, hr, hsome⟩
  exact ⟨r, hr, hsome⟩

/-- C5: every Message record in the output of SMS validation
(`validateSMSData`) has a non-empty sender number, receiver number,
message body and timestamp string. -/
theorem sms_required_fields
    (pd : String → Option Nat) (iso : Nat → String)
    (data : List Row) (m : SMS) (h : m ∈ validateSMSData pd iso data) :
    m.sender ≠ "" ∧ m.receiver ≠ "" ∧ m.body ≠ "" ∧ m.timestamp ≠ "" := by
  rcases mem_validateSMSData pd iso data m h with ⟨r, _, hsome⟩
  have := validateSMSRow_fields r m hsome
  exact ⟨this.1, this.2.1, this.2.2.1, this.2.2.2.1⟩

/-- Witness for C5 on a one-row upload that passes validation. -/
theorem sms_required_fields_witness :
    (⟨"", "111", "222", "hi", "Sender", "2024-01-01 10:00"⟩ : SMS) ∈
      validateSMSData (fun _ => none) (fun _ => "")
        [fun k =>
          if k = "Sender Number" then "111"
          else if k = "Receiver Number" then "222"
          else if k = "Message Body" then "hi"
          else if k = "Timestamp" then "2024-01-01 10:00" else ""] ∧
    ("111" : String) ≠ "" ∧ ("222" : String) ≠ "" ∧ ("hi" : String) ≠ "" ∧
    ("2024-01-01 10:00" : String) ≠ "" := by
  have hm : (⟨"", "111", "222", "hi", "Sender", "2024-01-01 10:00"⟩ : SMS) ∈
      validateSMSData (fun _ => none) (fun _ => "")
        [fun k =>
          if k = "Sender Number" then "111"
          else if k = "Receiver Number" then "222"
          else if k = "Message Body" then "hi"
          else if k = "Timestamp" then "2024-01-01 10:00" else ""] := by
    decide
  have := sms_required_fields (fun _ => none) (fun _ => "") _ _ hm
  exact ⟨hm, this⟩

/-- C7: a row whose extracted sender-field value is literally
`"Sender Number"` is never present in normalizer output — its validation
returns `none` in both revisions of `validateSMSData`, and no output record
of either revision carries that sender value. Rows are quantified over all
column contents, so this covers every source format that can produce a
row. -/
theorem header_row_rejection :
    (∀ r : Row, smsSender r = "Sender Number" → validateSMSRow r = none) ∧
    (∀ r : Row, smsSenderV0 r = "Sender Number" →
      validateSMSRowV0 r = none) ∧
    (∀ (pd : String → Option Nat) (iso : Nat → String) (data : List Row)
        (m : SMS), m ∈ validateSMSData pd iso data →
        m.sender ≠ "Sender Number") ∧
    (∀ (data : List Row) (m : SMS), m ∈ validateSMSDataV0 data →
      m.sender ≠ "Sender Number") := by
  refine ⟨?_, ?_, ?_, ?_⟩
  · intro r h
    unfold validateSMSRow
    split_ifs with h₁ h₂ h₃ h₄ h₅ <;> try rfl
    exact absurd h h₅.2.2.2.2.1
  · intro r h
    unfold validateSMSRowV0
    split_ifs with h₁ h₂ h₃ <;> try rfl
    exact absurd h h₃.2.2.2.2.1
  · intro pd iso data m h
    rcases mem_validateSMSData pd iso data m h with ⟨r, _, hsome⟩
    exact (validateSMSRow_fields r m hsome).2.2.2.2
  · intro data m h
    rcases List.mem_filterMap.mp h with ⟨r, _, hsome⟩
    unfold validateSMSRowV0 at hsome
    split_ifs at hsome with h₁ h₂ h₃
    cases hsome
    exact h₃.2.2.2.2.1

/-- Sender extraction of `validateCallData`. -/
def callSender (r : Row) : String :=
  jsOr (r "Sender Number") (jsOr (r "Sender") (r "__EMPTY"))

/-- Receiver extraction of `validateCallData`. -/
def callReceiver (r : Row) : String :=
  jsOr (r "Receiver Number")
    (jsOr (r "Target Number") (jsOr (r "Receiver") (r "__EMPTY_1")))

/-- Call-info extraction of `validateCallData`. -/
def callInfoF (r : Row) : String :=
  jsOr (r "Call Info") (jsOr (r "Info") (r "__EMPTY_2"))

/-- Timestamp extraction of `validateCallData`. -/
def callTime (r : Row) : String :=
  jsOr (r "Timestamp") (jsOr (r "Date") (r "__EMPTY_4"))

/-- Id extraction of `validateCallData` (with the duplicated `Call #`
fallback of the source). -/
def callNumF (r : Row) : String :=
  jsOr (r "Call #") (jsOr (r "Call") (r "Call #"))

/-- Per-row validation of `validateCallData`. -/
def validateCallRow (r : Row) : Option CallLog :=
  if r "_type" = "SMS" then none
  else if callSender r = "Sender Number" ∨ callReceiver r = "Receiver Number" ∨
      callReceiver r = "Target Number" then none
  else if callNumF r = "Call #" ∨ callTime r = "Timestamp" then none
  else if containsSub "Phone Number:" (callSender r) ∨
      containsSub "Export Date:" (callSender r) ∨
      containsSub "===" (callSender r) then none
  else if callSender r ≠ "" ∧ callReceiver r ≠ "" ∧ callTime r ≠ "" ∧
      callSender r ≠ "Sender Number" ∧ callReceiver r ≠ "Receiver Number" ∧
      callReceiver r ≠ "Target Number" ∧ callTime r ≠ "Timestamp" then
    some ⟨callNumF r, callSender r, callReceiver r, callInfoF r,
      jsOr (r "Type") "Sender", callTime r⟩
  else none

/-- Call normalizer `validateCallData`: validate every row, then
deduplicate by content fingerprint. -/
def validateCallData (pd : String → Option Nat) (iso : Nat → String)
    (data : List Row) : List CallLog :=
  deduplicateItems (callKey pd iso) (data.filterMap validateCallRow)

/-- Name extraction of `validateContactData`. -/
def contactName (r : Row) : String := jsOr (r "Contact Name") (r "Name")

/-- Phone extraction of `validateContactData`. -/
def contactPhone (r : Row) : String :=
  jsOr (r "Phone Number") (jsOr (r "Phone") (r "Number"))

/-- Per-row validation of `validateContactData` (the `Full Name` field is
left absent, encoded `""`). -/
def validateContactRow (r : Row) : Option Contact :=
  if contactName r = "Contact Name" ∨ contactPhone r = "Phone Number" ∨
      contactName r = "Name" ∨ contactPhone r = "Phone" then none
  else if containsSub "Phone Number:" (contactName r) ∨
      containsSub "Export Date:" (contactName r) ∨
      containsSub "===" (contactName r) then none
  else if contactName r ≠ "" ∧ contactPhone r ≠ "" ∧
      contactName r ≠ "Contact Name" ∧ contactPhone r ≠ "Phone Number" ∧
      contactName r ≠ "Name" ∧ contactPhone r ≠ "Phone" then
    some ⟨contactName r, contactPhone r, ""⟩
  else none

/-- Dedup key for contacts: `deduplicateItems(validated, "Phone Number")`
reads `String(item["Phone Number"] || "")`. -/
def contactKeyF (c : Contact) : String := jsOr c.phone ""

/-- Contact normalizer `validateContactData`: validate every row, then
deduplicate on the phone-number field. -/
def validateContactData (data : List Row) : List Contact :=
  deduplicateItems contactKeyF (data.filterMap validateContactRow)

/-- Decimal value of a digit list. -/
def digitsVal (cs : List Char) : Nat :=
  cs.foldl (fun n c => n * 10 + (c.toNat - 48)) 0

/-- Exponent part of a JavaScript float literal suffix: `[eE][+-]?digits`;
when the digits are missing the exponent marker is not consumed and the
value is unaffected. -/
def expPart : List Char → Int
  | c :: t =>
      if c = 'e' ∨ c = 'E' then
        match t with
        | '+' :: u =>
            if u.takeWhile Char.isDigit = [] then 0
            else (digitsVal (u.takeWhile Char.isDigit) : Int)
        | '-' :: u =>
            if u.takeWhile Char.isDigit = [] then 0
            else -(digitsVal (u.takeWhile Char.isDigit) : Int)
        | u =>
            if u.takeWhile Char.isDigit = [] then 0
            else (digitsVal (u.takeWhile Char.isDigit) : Int)
      else 0
  | [] => 0

/-- Syntactic part of JavaScript `parseFloat`: skip leading whitespace,
then read the longest leading segment of the shape `[+-]? digits [. digits]
[exponent]`, returning the sign flag, integer-part value, fraction-part
value, fraction length and exponent; `none` models `NaN` (no digits at
all). The `Infinity` literal form is not modelled: the inputs are currency
cells. -/
def parseFloatParts (s : String) : Option (Bool × Nat × Nat × Nat × Int) :=
  let cs := s.data.dropWhile Char.isWhitespace
  let sgn : Bool × List Char :=
    match cs with
    | '+' :: t => (false, t)
    | '-' :: t => (true, t)
    | _ => (false, cs)
  let ids := sgn.2.takeWhile Char.isDigit
  let rest := sgn.2.dropWhile Char.isDigit
  let fds :=
    match rest with
    | '.' :: t => t.takeWhile Char.isDigit
    | _ => []
  let rest2 :=
    match rest with
    | '.' :: t => t.dropWhile Char.isDigit
    | _ => rest
  if ids = [] ∧ fds = [] then none
  else some (sgn.1, digitsVal ids, digitsVal fds, fds.length, expPart rest2)

/-- Numeric value of the parts read by `parseFloatParts`. -/
def partsToQ (p : Bool × Nat × Nat × Nat × Int) : ℚ :=
  (if p.1 then -1 else 1) *
    ((p.2.1 : ℚ) + (p.2.2.1 : ℚ) / (10 : ℚ) ^ p.2.2.2.1) *
    (10 : ℚ) ^ p.2.2.2.2

/-- Model of JavaScript `parseFloat` over exact rationals. -/
def parseFloatQ (s : String) : Option ℚ :=
  (parseFloatParts s).map partsToQ

/-- Amount-cell cleanup of `parseBankData`: strip currency symbols and
thousands separators (`replace(/[$,]/g, "")`) and trim. -/
def cleanCur (s : String) : String :=
  jsTrim (String.mk (s.data.filter (fun c => !(c = '$' ∨ c = ','))))

/-- Amount normalization of `parseBankData`: `parseFloat(clean) || 0` — an
unparsable cell yields 0 (and a parsed 0 stays 0). -/
def bankAmount (s : String) : ℚ := (parseFloatQ (cleanCur s)).getD 0

/-- Canonical bank record: `fromName` models the `from` field. -/
structure BankRecord where
  id : String
  fromName : String
  routing : String
  reason : String
  amount : ℚ
  balance : ℚ
  date : String
  rawDate : String
deriving DecidableEq, Repr

/-- Record construction of `parseBankData` at row index `i`. -/
def bankOfRow (i : Nat) (r : Row) : BankRecord :=
  ⟨toString i, r "From", r "Routing", r "Reason", bankAmount (r "Amount"),
   bankAmount (r "Balance"), r "Date", r "Date"⟩

/-- Row transform of `parseBankData`: map each decoded row (with its index
as synthetic id), then keep rows with a counterparty and a date. -/
def parseBankRows (rows : List Row) : List BankRecord :=
  ((rows.enum).map (fun p => bankOfRow p.1 p.2)).filter
    (fun b => b.fromName != "" && b.date != "")

/-- C9: the bank parser maps the amount cell `"-1,234.50 $"` to the number
-1234.50 and the empty cell to 0, both through `bankAmount` directly and
through `parseBankRows` on concrete rows. -/
theorem bank_amount_parsing :
    bankAmount "-1,234.50 $" = (-1234.5 : ℚ) ∧ bankAmount "" = 0 ∧
    (parseBankRows
        [fun k =>
          if k = "From" then "A"
          else if k = "Date" then "2024-01-01"
          else if k = "Amount" then "-1,234.50 $" else "",
         fun k =>
          if k = "From" then "B"
          else if k = "Date" then "2024-01-02" else ""]).map
      (fun b => b.amount) = [(-1234.5 : ℚ), 0] := by
  have hc1 : cleanCur "-1,234.50 $" = "-1234.50" := by decide
  have hp1 : parseFloatParts "-1234.50" = some (true, 1234, 50, 2, 0) := by
    decide
  have h1 : bankAmount "-1,234.50 $" = (-1234.5 : ℚ) := by
    unfold bankAmount parseFloatQ
    rw [hc1, hp1]
    simp only [Option.map_some', Option.getD_some]
    unfold partsToQ
    norm_num
  have h2 : bankAmount "" = 0 := rfl
  have h3 : (parseBankRows
        [fun k =>
          if k = "From" then "A"
          else if k = "Date" then "2024-01-01"
          else if k = "Amount" then "-1,234.50 $" else "",
         fun k =>
          if k = "From" then "B"
          else if k = "Date" then "2024-01-02" else ""]).map
      (fun b => b.amount) = [bankAmount "-1,234.50 $", bankAmount ""] := rfl
  exact ⟨h1, h2, by rw [h3, h1, h2]⟩

/-- Increment the count of a key in the insertion-ordered tally
(`phoneCount[k] = (phoneCount[k] || 0) + 1` on a JavaScript object). -/
def bumpCount (k : String) : List (String × Nat) → List (String × Nat)
  | [] => [(k, 1)]
  | (k', n) :: t =>
      if k' = k then (k', n + 1) :: t else (k', n) :: bumpCount k t

/-- Tally the sender then the receiver of one record, skipping values that
are empty or whitespace-only, keying by the trimmed number. -/
def addPhones (sndr rcvr : String) (m : List (String × Nat)) :
    List (String × Nat) :=
  let m1 := if sndr ≠ "" ∧ jsTrim sndr ≠ "" then bumpCount (jsTrim sndr) m
    else m
  if rcvr ≠ "" ∧ jsTrim rcvr ≠ "" then bumpCount (jsTrim rcvr) m1 else m1

/-- Phone-number frequency tally of `getMainPhoneNumber`: calls first, then
messages (`[...calls, ...sms]`), in insertion order. -/
def phoneTally (sms : List SMS) (calls : List CallLog) :
    List (String × Nat) :=
  ((calls.map fun c => (c.sender, c.receiver)) ++
      (sms.map fun m => (m.sender, m.receiver))).foldl
    (fun acc p => addPhones p.1 p.2 acc) []

/-- Array-index test for JavaScript object keys: a canonical decimal
numeral below 2^32 - 1. `Object.entries` lists such keys first, in
ascending numeric order. -/
def isArrayIdx (s : String) : Bool :=
  if s.data ≠ [] ∧ s.data.all Char.isDigit ∧
      (s = "0" ∨ s.data.head? ≠ some '0') ∧
      digitsVal s.data < 4294967295 then true else false

/-- Insertion step of the ascending numeric ordering of array-index keys. -/
def insAscBy (x : String × Nat) : List (String × Nat) →
    List (String × Nat)
  | [] => [x]
  | y :: ys =>
      if digitsVal x.1.data ≤ digitsVal y.1.data then x :: y :: ys
      else y :: insAscBy x ys

/-- Ascending numeric sort of array-index keys. -/
def sortIdxAsc : List (String × Nat) → List (String × Nat)
  | [] => []
  | x :: xs => insAscBy x (sortIdxAsc xs)

/-- Enumeration order of `Object.entries` on the tally object: array-index
keys in ascending numeric order, then the remaining keys in insertion
order. -/
def jsEntries (m : List (String × Nat)) : List (String × Nat) :=
  sortIdxAsc (m.filter fun p => isArrayIdx p.1) ++
    m.filter fun p => !isArrayIdx p.1

/-- Insertion step of the stable descending sort by count, modelling the
stable `Array.sort(([, a], [, b]) => b - a)`: an earlier element precedes
later ones of equal count. -/
def insCountDesc (x : String × Nat) : List (String × Nat) →
    List (String × Nat)
  | [] => [x]
  | y :: ys => if x.2 ≥ y.2 then x :: y :: ys else y :: insCountDesc x ys

/-- Stable descending sort by count. -/
def sortCountDesc : List (String × Nat) → List (String × Nat)
  | [] => []
  | x :: xs => insCountDesc x (sortCountDesc xs)

/-- Frequency fallback of `getMainPhoneNumber`:
`sortedPhones[0]?.[0] || ""`. -/
def gmpnFallback (sms : List SMS) (calls : List CallLog) : String :=
  match sortCountDesc (jsEntries (phoneTally sms calls)) with
  | [] => ""
  | p :: _ => jsOr p.1 ""

/-- Second step of `getMainPhoneNumber`: the first `Sender`-tagged message
with a non-empty sender, else the frequency fallback. -/
def gmpnFromSMS (sms : List SMS) (calls : List CallLog) : String :=
  match sms.filter (fun m => m.type == "Sender") with
  | m :: _ => if m.sender ≠ "" then m.sender else gmpnFallback sms calls
  | [] => gmpnFallback sms calls

/-- Identity resolver `getMainPhoneNumber` (lib/analytics): the first
`Sender`-tagged call with a non-empty sender number; else the first
`Sender`-tagged message with a non-empty sender number; else the most
frequent number in the tally, ties and enumeration order as in
JavaScript. -/
def getMainPhoneNumber (sms : List SMS) (calls : List CallLog) : String :=
  match calls.filter (fun c => c.type == "Sender") with
  | c :: _ => if c.sender ≠ "" then c.sender else gmpnFromSMS sms calls
  | [] => gmpnFromSMS sms calls

/-- C3 counterexample: a single call tagged `Sender` whose sender-number
field is empty. The claim requires the resolver to return the sender
number of that call (the empty string) independent of the messages; the code
skips the empty sender, falls back, and returns `"999"` — and with a
`Sender`-tagged message present it returns `"123"` instead, so the result
also depends on the messages list. -/
theorem resolveOwner_counterexample :
    (([⟨"1", "", "999", "", "Sender", "2024-01-01 10:00"⟩] :
        List CallLog).filter (fun c => c.type == "Sender") =
      [⟨"1", "", "999", "", "Sender", "2024-01-01 10:00"⟩]) ∧
    getMainPhoneNumber []
        [⟨"1", "", "999", "", "Sender", "2024-01-01 10:00"⟩] = "999" ∧
    ("999" : String) ≠ "" ∧
    getMainPhoneNumber
        [⟨"1", "123", "999", "hi", "Sender", "2024-01-01 10:00"⟩]
        [⟨"1", "", "999", "", "Sender", "2024-01-01 10:00"⟩] = "123" ∧
    ("123" : String) ≠ "999" := by
  refine ⟨by decide, by decide, by decide, by decide, by decide⟩

/-- C3 amended: for every fixed set of call and message records in which at
least one call is tagged `Sender` and the first such call has a non-empty
`Sender Number` (as validated records always do), `getMainPhoneNumber`
returns the sender number of that call, independent of the content and
order of the messages list (the messages are universally quantified and
absent from the conclusion). -/
theorem resolveOwner_first_sender_call
    (sms : List SMS) (calls : List CallLog) (c : CallLog)
    (rest : List CallLog)
    (hf : calls.filter (fun c => c.type == "Sender") = c :: rest)
    (hs : c.sender ≠ "") :
    getMainPhoneNumber sms calls = c.sender := by
  unfold getMainPhoneNumber
  rw [hf]
  simp [hs]

/-- Witness for the amended C3 at a concrete call list. -/
theorem resolveOwner_first_sender_call_witness :
    (([⟨"1", "555", "222", "", "Sender", "t"⟩] : List CallLog).filter
        (fun c => c.type == "Sender") =
      [⟨"1", "555", "222", "", "Sender", "t"⟩]) ∧
    ("555" : String) ≠ "" ∧
    getMainPhoneNumber [] [⟨"1", "555", "222", "", "Sender", "t"⟩] =
      "555" :=
  ⟨by decide, by decide,
   resolveOwner_first_sender_call []
     [⟨"1", "555", "222", "", "Sender", "t"⟩]
     ⟨"1", "555", "222", "", "Sender", "t"⟩ [] (by decide) (by decide)⟩

/-- Replace every occurrence of one character by a string, modelling a
single `replace(/c/g, r)` pass. -/
def replChar (c : Char) (r : String) (s : String) : String :=
  String.mk (s.data.foldr (fun a acc => (if a = c then r.data else [a]) ++ acc) [])

/-- The apostrophe character. -/
def quoteChar : Char := Char.ofNat 39

/-- HTML-entity escaping `sanitizeHTML`: sequential global replaces of
ampersand, angle brackets, double quote, apostrophe and slash, in source
order (the ampersand pass runs first, innermost here). -/
def sanitizeHTML (s : String) : String :=
  replChar '/' "&#x2F;"
    (replChar quoteChar "&#x27;"
      (replChar '"' "&quot;"
        (replChar '>' "&gt;"
          (replChar '<' "&lt;"
            (replChar '&' "&amp;" s)))))

/-- Sanitization of one message: only the body is escaped. -/
def sanitizeSMS (m : SMS) : SMS := { m with body := sanitizeHTML m.body }

/-- Sanitization of one call: only the call-info text is escaped. -/
def sanitizeCall (c : CallLog) : CallLog :=
  { c with callInfo := sanitizeHTML c.callInfo }

/-- Sanitization of one contact: name and full name are escaped. -/
def sanitizeContact (c : Contact) : Contact :=
  { c with name := sanitizeHTML c.name, fullName := sanitizeHTML c.fullName }

/-- Sanitization of one bank record: counterparty and reason are
escaped. -/
def sanitizeBank (b : BankRecord) : BankRecord :=
  { b with
    fromName := sanitizeHTML b.fromName,
    reason := sanitizeHTML b.reason }

/-- Session data `ParsedData`: the four canonical record sequences. -/
structure ParsedData where
  sms : List SMS
  calls : List CallLog
  contacts : List Contact
  bank : List BankRecord
deriving DecidableEq, Repr

/-- The cleared session data. -/
def ParsedData.empty : ParsedData := ⟨[], [], [], []⟩

/-- Field-wise sanitization `sanitizeParsedData` (lib/store). -/
def sanitizeParsedData (d : ParsedData) : ParsedData :=
  ⟨d.sms.map sanitizeSMS, d.calls.map sanitizeCall,
   d.contacts.map sanitizeContact, d.bank.map sanitizeBank⟩

/-- Upload input `UploadedFiles`: four optional slots; a file is
represented by its decoded row sequence (decoding itself is I/O and out of
scope of the claims). An absent key is `none`; a present slot with an
empty file list is `some []`. -/
structure UploadedFiles where
  sms : Option (List (List Row))
  calls : Option (List (List Row))
  contacts : Option (List (List Row))
  bank : Option (List (List Row))

/-- Store state: session data, the two derived-statistics caches (their
contents are never inspected by the claims, so their types and the two processing
functions are parameters), the loading flag and the error string. -/
structure AppState (β γ : Type) where
  parsedData : ParsedData
  bankStats : Option β
  commStats : Option γ
  isLoading : Bool
  error : String

/-- Concatenate the per-file results in upload order. -/
def joinRows (l : List (List α)) : List α := l.foldr (· ++ ·) []

/-- Test for `Object.keys(files).length === 0`: every slot absent. -/
def allAbsent (f : UploadedFiles) : Bool :=
  f.sms.isNone && f.calls.isNone && f.contacts.isNone && f.bank.isNone

/-- Per-slot update of `handleFilesUpload`: an absent slot keeps the
previous records, a present slot with files validates their concatenated
rows, a present empty slot clears the kind. -/
def slotRecords (prev : List α) (valid : List (List Row) → List α) :
    Option (List (List Row)) → List α
  | none => prev
  | some fs => if fs.isEmpty then [] else valid fs

/-- Candidate new session data built by `handleFilesUpload` before the
empty-result check: per-kind slot updates over the current data. Bank
files are parsed per file (ids restart at 0 in each file) and
concatenated. -/
def mkNewData (pd : String → Option Nat) (iso : Nat → String)
    (cur : ParsedData) (f : UploadedFiles) : ParsedData :=
  ⟨slotRecords cur.sms (fun fs => validateSMSData pd iso (joinRows fs))
      f.sms,
   slotRecords cur.calls (fun fs => validateCallData pd iso (joinRows fs))
      f.calls,
   slotRecords cur.contacts (fun fs => validateContactData (joinRows fs))
      f.contacts,
   slotRecords cur.bank (fun fs => joinRows (fs.map parseBankRows)) f.bank⟩

/-- The empty-result check of `handleFilesUpload`: no validated sms, call
or bank records (contacts are not consulted). -/
def resultEmpty (nd : ParsedData) : Bool :=
  nd.sms.isEmpty && nd.calls.isEmpty && nd.bank.isEmpty

/-- Store action `handleFilesUpload` (lib/store): an entirely empty files
object resets the session; otherwise the new data is built per slot, and
committed raw with cleared statistics when it has no sms, call or bank
records, else sanitized with freshly computed statistics. The error string
ends empty on every path modelled (decode failures are I/O and out of
scope), and the loading flag is lowered by the `finally` block. -/
def handleFilesUpload (pd : String → Option Nat) (iso : Nat → String)
    {β γ : Type} (pB : List BankRecord → β) (pC : ParsedData → γ)
    (st : AppState β γ) (f : UploadedFiles) : AppState β γ :=
  if allAbsent f then
    { st with
      parsedData := ParsedData.empty,
      bankStats := none,
      commStats := none,
      error := "" }
  else
    let nd := mkNewData pd iso st.parsedData f
    if resultEmpty nd then
      { st with
        error := "",
        parsedData := nd,
        bankStats := none,
        commStats := none,
        isLoading := false }
    else
      let s := sanitizeParsedData nd
      { st with
        parsedData := s,
        bankStats := if s.bank.isEmpty then none else some (pB s.bank),
        commStats := some (pC s),
        error := "",
        isLoading := false }

/-- Store action `loadSession` (lib/store): sanitize the imported data,
recompute statistics, commit. -/
def loadSession {β γ : Type} (pB : List BankRecord → β)
    (pC : ParsedData → γ) (st : AppState β γ) (d : ParsedData) :
    AppState β γ :=
  let s := sanitizeParsedData d
  { st with
    parsedData := s,
    bankStats := if s.bank.isEmpty then none else some (pB s.bank),
    commStats := some (pC s),
    error := "",
    isLoading := false }

theorem handleFilesUpload_parsedData (pd : String → Option Nat)
    (iso : Nat → String) {β γ : Type} (pB : List BankRecord → β)
    (pC : ParsedData → γ) (st : AppState β γ) (f : UploadedFiles)
    (hA : allAbsent f = false) :
    (handleFilesUpload pd iso pB pC st f).parsedData =
      if resultEmpty (mkNewData pd iso st.parsedData f) then
        mkNewData pd iso st.parsedData f
      else sanitizeParsedData (mkNewData pd iso st.parsedData f) := by
  simp only [handleFilesUpload, hA, Bool.false_eq_true, if_false]
  by_cases hE : resultEmpty (mkNewData pd iso st.parsedData f) <;> simp [hE]

/-- C8 counterexample: with every slot absent the claim requires the
previously loaded records of each kind to be unchanged, but `handleFilesUpload`
resets the session, clearing a previously non-empty sms list. -/
theorem upload_frame_counterexample :
    (⟨none, none, none, none⟩ : UploadedFiles).sms = none ∧
    (handleFilesUpload (fun _ => none) (fun _ => "") (fun _ => ())
        (fun _ => ())
        ⟨⟨[⟨"", "1", "2", "x", "Sender", "t"⟩], [], [], []⟩,
         (none : Option Unit), (none : Option Unit), false, ""⟩
        ⟨none, none, none, none⟩).parsedData.sms = [] ∧
    ([⟨"", "1", "2", "x", "Sender", "t"⟩] : List SMS) ≠ [] := by
  refine ⟨rfl, by decide, by decide⟩

/-- C8 amended: if every slot is absent, `handleFilesUpload` resets the
session and all four kinds are cleared; otherwise, a kind whose slot is
present with an empty file list is cleared, and a kind whose slot is
absent keeps its previous records — verbatim when the upload yields no
sms, call or bank records, and re-passed through HTML sanitization (so not
necessarily byte-identical) when it yields some. -/
theorem upload_slot_frame (pd : String → Option Nat) (iso : Nat → String)
    {β γ : Type} (pB : List BankRecord → β) (pC : ParsedData → γ)
    (st : AppState β γ) (f : UploadedFiles) :
    (allAbsent f = true →
      (handleFilesUpload pd iso pB pC st f).parsedData = ParsedData.empty) ∧
    (allAbsent f = false →
      (f.sms = some [] →
        (handleFilesUpload pd iso pB pC st f).parsedData.sms = []) ∧
      (f.calls = some [] →
        (handleFilesUpload pd iso pB pC st f).parsedData.calls = []) ∧
      (f.contacts = some [] →
        (handleFilesUpload pd iso pB pC st f).parsedData.contacts = []) ∧
      (f.bank = some [] →
        (handleFilesUpload pd iso pB pC st f).parsedData.bank = []) ∧
      (f.sms = none →
        (handleFilesUpload pd iso pB pC st f).parsedData.sms =
          if resultEmpty (mkNewData pd iso st.parsedData f) then
            st.parsedData.sms
          else st.parsedData.sms.map sanitizeSMS) ∧
      (f.calls = none →
        (handleFilesUpload pd iso pB pC st f).parsedData.calls =
          if resultEmpty (mkNewData pd iso st.parsedData f) then
            st.parsedData.calls
          else st.parsedData.calls.map sanitizeCall) ∧
      (f.contacts = none →
        (handleFilesUpload pd iso pB pC st f).parsedData.contacts =
          if resultEmpty (mkNewData pd iso st.parsedData f) then
            st.parsedData.contacts
          else st.parsedData.contacts.map sanitizeContact) ∧
      (f.bank = none →
        (handleFilesUpload pd iso pB pC st f).parsedData.bank =
          if resultEmpty (mkNewData pd iso st.parsedData f) then
            st.parsedData.bank
          else st.parsedData.bank.map sanitizeBank)) := by
  constructor
  · intro hA
    simp [handleFilesUpload, hA]
  · intro hA
    have hp := handleFilesUpload_parsedData pd iso pB pC st f hA
    refine ⟨fun h => ?_, fun h => ?_, fun h => ?_, fun h => ?_,
      fun h => ?_, fun h => ?_, fun h => ?_, fun h => ?_⟩ <;>
      rw [hp] <;>
      cases hE : resultEmpty (mkNewData pd iso st.parsedData f) <;>
      simp [hE, mkNewData, slotRecords, sanitizeParsedData, h]

/-- Witness for the amended C8: a present-but-empty sms slot clears the
sms records, and an absent calls slot carries the previous calls through
(here the upload result is non-empty, so they pass through sanitization,
which leaves this plain record unchanged). -/
theorem upload_slot_frame_witness :
    (handleFilesUpload (fun _ => none) (fun _ => "") (fun _ => ())
        (fun _ => ())
        ⟨⟨[⟨"", "1", "2", "x", "Sender", "t"⟩],
          [⟨"1", "5", "6", "", "Sender", "t"⟩], [], []⟩,
         (none : Option Unit), (none : Option Unit), false, ""⟩
        ⟨some [], none, none, none⟩).parsedData.sms = [] ∧
    (handleFilesUpload (fun _ => none) (fun _ => "") (fun _ => ())
        (fun _ => ())
        ⟨⟨[⟨"", "1", "2", "x", "Sender", "t"⟩],
          [⟨"1", "5", "6", "", "Sender", "t"⟩], [], []⟩,
         (none : Option Unit), (none : Option Unit), false, ""⟩
        ⟨some [], none, none, none⟩).parsedData.calls =
      (if resultEmpty (mkNewData (fun _ => none) (fun _ => "")
          ⟨[⟨"", "1", "2", "x", "Sender", "t"⟩],
           [⟨"1", "5", "6", "", "Sender", "t"⟩], [], []⟩
          ⟨some [], none, none, none⟩) then
        [⟨"1", "5", "6", "", "Sender", "t"⟩]
      else [⟨"1", "5", "6", "", "Sender", "t"⟩].map sanitizeCall) :=
  ⟨((upload_slot_frame (fun _ => none) (fun _ => "") (fun _ => ())
      (fun _ => ())
      ⟨⟨[⟨"", "1", "2", "x", "Sender", "t"⟩],
        [⟨"1", "5", "6", "", "Sender", "t"⟩], [], []⟩,
       (none : Option Unit), (none : Option Unit), false, ""⟩
      ⟨some [], none, none, none⟩).2 (by decide)).1 rfl,
   ((upload_slot_frame (fun _ => none) (fun _ => "") (fun _ => ())
      (fun _ => ())
      ⟨⟨[⟨"", "1", "2", "x", "Sender", "t"⟩],
        [⟨"1", "5", "6", "", "Sender", "t"⟩], [], []⟩,
       (none : Option Unit), (none : Option Unit), false, ""⟩
      ⟨some [], none, none, none⟩).2 (by decide)).2.2.2.2.2.1 rfl⟩

/-- C10: when at least one slot is present and the built data has no sms,
call or bank records, the store commits the new data as-is — contacts are
stored as the raw validator output, bypassing HTML sanitization — with an
empty error string and both statistics caches cleared. -/
theorem upload_empty_result_commit (pd : String → Option Nat)
    (iso : Nat → String) {β γ : Type} (pB : List BankRecord → β)
    (pC : ParsedData → γ) (st : AppState β γ) (f : UploadedFiles)
    (hA : allAbsent f = false)
    (hE : resultEmpty (mkNewData pd iso st.parsedData f) = true) :
    handleFilesUpload pd iso pB pC st f =
      { st with
        error := "",
        parsedData := mkNewData pd iso st.parsedData f,
        bankStats := none,
        commStats := none,
        isLoading := false } ∧
    ∀ fs, f.contacts = some fs → fs.isEmpty = false →
      (handleFilesUpload pd iso pB pC st f).parsedData.contacts =
        validateContactData (joinRows fs) := by
  have h1 : handleFilesUpload pd iso pB pC st f =
      { st with
        error := "",
        parsedData := mkNewData pd iso st.parsedData f,
        bankStats := none,
        commStats := none,
        isLoading := false } := by
    simp [handleFilesUpload, hA, hE]
  refine ⟨h1, ?_⟩
  intro fs hfs hne
  rw [h1]
  simp [mkNewData, slotRecords, hfs, hne]

/-- Witness for C10: a contacts-only upload with a markup-bearing name is
committed raw, with empty error and cleared statistics. -/
theorem upload_empty_result_commit_witness :
    allAbsent (⟨none, none,
        some [[fun k =>
          if k = "Contact Name" then "<i>Bob</i>"
          else if k = "Phone Number" then "123" else ""]], none⟩ :
      UploadedFiles) = false ∧
    (handleFilesUpload (fun _ => none) (fun _ => "") (fun _ => ())
        (fun _ => ())
        ⟨ParsedData.empty, (none : Option Unit), (none : Option Unit),
         false, ""⟩
        ⟨none, none,
         some [[fun k =>
           if k = "Contact Name" then "<i>Bob</i>"
           else if k = "Phone Number" then "123" else ""]],
         none⟩).parsedData.contacts =
      validateContactData (joinRows
        [[fun k =>
          if k = "Contact Name" then "<i>Bob</i>"
          else if k = "Phone Number" then "123" else ""]]) :=
  ⟨rfl,
   (upload_empty_result_commit (fun _ => none) (fun _ => "") (fun _ => ())
      (fun _ => ())
      ⟨ParsedData.empty, (none : Option Unit), (none : Option Unit),
       false, ""⟩
      ⟨none, none,
       some [[fun k =>
         if k = "Contact Name" then "<i>Bob</i>"
         else if k = "Phone Number" then "123" else ""]],
       none⟩ rfl (by decide)).2
     [[fun k =>
       if k = "Contact Name" then "<i>Bob</i>"
       else if k = "Phone Number" then "123" else ""]]
     rfl rfl⟩

/-- C4: the claim that every uploaded free-text field passes through HTML
escaping before storage fails on the empty-result commit path — a
contacts-only upload stores the raw name `<i>Bob</i>` in session state,
although `sanitizeHTML` would alter it. This contradicts the mandatory,
unconditional sanitization pass the store documents for itself. -/
theorem sanitization_bypass_on_empty_result :
    (handleFilesUpload (fun _ => none) (fun _ => "") (fun _ => ())
        (fun _ => ())
        ⟨ParsedData.empty, (none : Option Unit), (none : Option Unit),
         false, ""⟩
        ⟨none, none,
         some [[fun k =>
           if k = "Contact Name" then "<i>Bob</i>"
           else if k = "Phone Number" then "123" else ""]],
         none⟩).parsedData.contacts.map (fun c => c.name) =
      ["<i>Bob</i>"] ∧
    sanitizeHTML "<i>Bob</i>" ≠ "<i>Bob</i>" := by
  refine ⟨by decide, by decide⟩

end VisualRecords
